import Mathlib

/-!
Shallow embedding of `scripts/safe-op.ts`, the backup/restore utility of the
agent-scripts repository.  Paths and file contents are modelled as `String`
(working internally on the underlying `List Char` so that everything reduces),
the filesystem as an association list from absolute paths to file data, and the
JSON-lines operation log as an optional list of lines, where each line is
either a well-formed `BackupRecord` (a line that `JSON.parse` accepts and that
has record shape) or an unparseable raw line.  Machine time is threaded through
the state: `nowIso` is the value `new Date().toISOString()` would return, and
`now` is a monotone clock used for file modification times.
-/

deriving instance DecidableEq for Except

namespace SafeOp

/-- Digit test for the `\d` character class of the source's regexes
(`Char.isDigit` matches ASCII `0`-`9`, exactly as JavaScript `\d`). -/
def isDig (c : Char) : Bool := c.isDigit

/-- Matches the captured timestamp pattern
`\d{4}-\d{2}-\d{2}T\d{2}-\d{2}-\d{2}` of the source's regexes: exactly 19
characters, digits separated by `-` and one `T`. -/
def tsPat (l : List Char) : Bool :=
  match l with
  | [a, b, c, d, e, f, g, h, i, j, k, m, n, o, p, q, r, u, v] =>
    isDig a && isDig b && isDig c && isDig d && e == '-' &&
    isDig f && isDig g && h == '-' && isDig i && isDig j &&
    k == 'T' && isDig m && isDig n && o == '-' && isDig p &&
    isDig q && r == '-' && isDig u && isDig v
  | _ => false

/-- The literal part `.context/backups/` occurring in the regexes of
`rollback` (the backup directory is `<root>/.context/backups`). -/
def bdirPat : List Char := ".context/backups/".toList

/-- Attempts to match the regex
`\.context\/backups\/[^/]+\.(\d{4}-\d{2}-\d{2}T\d{2}-\d{2}-\d{2})\.bak$`
against the whole remaining input `l` (the `$` anchor forces full consumption
of the rest of the string).  Because the timestamp group has fixed length 19
and `.bak` is anchored at the end, the decomposition is unique; returns the
captured timestamp group on success. -/
def match1 (l : List Char) : Option (List Char) :=
  if bdirPat.isPrefixOf l then
    let rest := l.drop bdirPat.length
    let n := rest.length
    if n < 25 then none
    else
      let name := rest.take (n - 24)
      let ts := (rest.drop (n - 23)).take 19
      if !name.isEmpty && !(name.contains '/') &&
         (rest.drop (n - 24)).take 1 == ['.'] && tsPat ts &&
         rest.drop (n - 4) == ".bak".toList
      then some ts else none
  else none

/-- First `replace` of `rollback`: replaces the leftmost (and, as the name
part cannot contain `/`, only possible) match of
`/\.context\/backups\/[^/]+\.(ts)\.bak$/` with the captured group `$1`,
i.e. with the bare timestamp. -/
def replace1 : List Char → List Char
  | [] => []
  | c :: cs =>
    match match1 (c :: cs) with
    | some ts => ts
    | none => c :: replace1 cs

/-- Second `replace` of `rollback`: deletes the leftmost occurrence of the
literal `.context/backups/` (regex `/\.context\/backups\//` without the
global flag replaces only the first occurrence). -/
def replace2 : List Char → List Char
  | [] => []
  | c :: cs =>
    if bdirPat.isPrefixOf (c :: cs) then (c :: cs).drop bdirPat.length
    else c :: replace2 cs

/-- Third `replace` of `rollback`: strips a trailing
`.<timestamp>.bak` suffix (regex `/\.\d{4}-\d{2}-\d{2}T\d{2}-\d{2}-\d{2}\.bak$/`,
a fixed 24-character suffix) if present. -/
def replace3 (l : List Char) : List Char :=
  let n := l.length
  if (decide (24 ≤ n)) && (l.drop (n - 24)).take 1 == ['.'] &&
     tsPat ((l.drop (n - 23)).take 19) && l.drop (n - 4) == ".bak".toList
  then l.take (n - 24) else l

/-- The full target-derivation chain of `rollback` when no explicit target is
given: `resolve(backupPath).replace(re1, "$1").replace(re2, "").replace(re3, "")`
applied to an already-resolved path. -/
def deriveTarget (p : String) : String := ⟨replace3 (replace2 (replace1 p.data))⟩

/-! ## Data model -/

/-- Metadata of one file in the modelled filesystem: its byte content and its
modification time (`ls -t` in `cleanOldBackups` sorts on the latter). -/
structure FileInfo where
  content : String
  mtime : Nat
deriving DecidableEq, Repr

/-- The `BackupRecord` interface of the source.  The `operation` field is the
string literal the source stores (its TypeScript type is the union
`'backup' | 'rollback'`). -/
structure BackupRecord where
  timestamp : String
  originalPath : String
  backupPath : String
  operation : String
  comment : Option String
deriving DecidableEq, Repr

/-- One nonempty line of `operations.jsonl`: either the JSON serialization of
a `BackupRecord` (`Sum.inl`), or a raw line that `JSON.parse` rejects
(`Sum.inr`).  Lines that are valid JSON but not record-shaped are not needed
by any claim and are not distinguished here. -/
abbrev LogLine := Sum BackupRecord String

/-- The `BackupOptions` interface of the source.  `maxBackups` is an `Int`
because JavaScript numbers there can be negative (`parseInt` results). -/
structure BackupOptions where
  maxBackups : Option Int
  comment : Option String
deriving DecidableEq, Repr

/-- World state threaded through the operations: the filesystem (association
list from absolute path to file data; directories are not modelled because no
claim observes them), the operation log (`none` when `operations.jsonl` does
not exist, otherwise its nonempty lines in file order), the process working
directory, the mtime clock `now`, and `nowIso`, the string
`new Date().toISOString()` returns at the current instant. -/
structure Sys where
  fs : List (String × FileInfo)
  log : Option (List LogLine)
  cwd : String
  now : Nat
  nowIso : String
deriving DecidableEq, Repr

/-- Absolute-path test used to model `path.resolve`. -/
def isAbsolute (p : String) : Bool :=
  match p.data with
  | '/' :: _ => true
  | _ => false

/-- Models `resolve(p)` relative to the working directory, for inputs that
are already normalized (no `.`/`..` segments, which no claim exercises). -/
def resolveP (cwd p : String) : String :=
  if isAbsolute p then p else cwd ++ "/" ++ p

/-- Models `fs.existsSync` plus `readFileSync`: looks a path up in the
filesystem, resolving it against the working directory as the OS does. -/
def lookupFs (fs : List (String × FileInfo)) (p : String) : Option FileInfo :=
  (fs.find? (fun e => e.1 == p)).map Prod.snd

/-- Models writing a file: overwrites the entry in place when the path exists
(as `copyFileSync` does), otherwise appends a fresh entry. -/
def setFile (fs : List (String × FileInfo)) (p : String) (fi : FileInfo) :
    List (String × FileInfo) :=
  if fs.any (fun e => e.1 == p) then
    fs.map (fun e => if e.1 == p then (p, fi) else e)
  else fs ++ [(p, fi)]

/-- Models `String.prototype.split('/')` (and `path.basename` restricted to
slash-free trailing components, which is all the source feeds it). -/
def splitSlash : List Char → List (List Char)
  | [] => [[]]
  | c :: rest =>
    if c = '/' then [] :: splitSlash rest
    else
      match splitSlash rest with
      | [] => [[c]]
      | g :: gs => (c :: g) :: gs

/-- Last path component: `originalPath.split('/').pop()` in `cleanOldBackups`
and `basename(originalPath)` in `getBackupPath` (they agree on the resolved
file paths the source passes). -/
def lastComponent (p : String) : String := ⟨(splitSlash p.data).getLastD []⟩

/-- The constant `BACKUP_DIR = join(ROOT_DIR, '.context', 'backups')`,
parametrized by the resolved repository root. -/
def backupDir (rootDir : String) : String := rootDir ++ "/.context/backups"

/-- Models `getTimestamp()`:
`new Date().toISOString().replace(/[:.]/g, '-').slice(0, -5)`. -/
def getTimestamp (iso : String) : String :=
  let mapped := iso.data.map (fun c => if c = ':' || c = '.' then '-' else c)
  ⟨mapped.take (mapped.length - 5)⟩

/-- Models `getBackupPath`: artifact path
`join(BACKUP_DIR, basename ++ "." ++ timestamp ++ ".bak")`. -/
def getBackupPath (rootDir : String) (iso : String) (originalPath : String) :
    String :=
  backupDir rootDir ++ "/" ++ lastComponent originalPath ++ "." ++
    getTimestamp iso ++ ".bak"

/-! ## Operations -/

/-- Models `recordOperation`.  The source restamps `timestamp` with
`new Date().toISOString()`, reads the existing log content, and then calls
`writeFileSync(logPath, existing + line, { flag: 'a' })`.  Because the flag
`'a'` opens the file in append mode, the data `existing + line` is written
after the content that is already there, so the file ends up holding
`existing ++ existing ++ [line]` (the whole previous log is duplicated).
When the log file does not exist, `existing` is empty and the write creates
the file with the single new line. -/
def recordOperation (s : Sys) (r : BackupRecord) : Sys :=
  let line : LogLine := Sum.inl { r with timestamp := s.nowIso }
  let existing := s.log.getD []
  { s with log := some (existing ++ (existing ++ [line])) }

/-- Models `Array.prototype.slice(begin)` for a possibly negative `begin`,
as used by `cleanOldBackups` (`backupFiles.slice(keep)`). -/
def jsSlice {α : Type} (l : List α) (k : Int) : List α :=
  if 0 ≤ k then l.drop k.toNat else l.drop ((l.length : Int) + k).toNat

/-- Insertion step of the modification-time sort: keeps larger mtimes first. -/
def insertDesc (x : String × FileInfo) :
    List (String × FileInfo) → List (String × FileInfo)
  | [] => [x]
  | y :: ys => if y.2.mtime ≤ x.2.mtime then x :: y :: ys else y :: insertDesc x ys

/-- Models the ordering of `ls -t`: most recently modified first (the order
of entries with equal mtimes is unspecified by `ls`; this sort fixes one). -/
def lsByMtime : List (String × FileInfo) → List (String × FileInfo)
  | [] => []
  | x :: xs => insertDesc x (lsByMtime xs)

/-- Glob match for `"${BACKUP_DIR}/${basename}".*.bak` applied to a path in
the modelled filesystem: the path is directly inside the backup directory and
its entry name is `basename ++ "." ++ mid ++ ".bak"` for some slash-free
(possibly empty) `mid`. -/
def matchesBackupGlob (rootDir bn p : String) : Bool :=
  let pre := (backupDir rootDir ++ "/").data
  pre.isPrefixOf p.data &&
  (let name := p.data.drop pre.length
   !(name.contains '/') && (bn.data ++ ['.']).isPrefixOf name &&
   ".bak".data.isSuffixOf (name.drop (bn.data.length + 1)))

/-- Models `cleanOldBackups`: lists the artifacts matching the glob, sorted
`ls -t` (newest first); when there are more than `keep` of them, removes
every artifact beyond position `keep` in that ordering. -/
def cleanOldBackups (rootDir : String) (s : Sys) (originalPath : String)
    (keep : Int) : Sys :=
  let bn := lastComponent originalPath
  let backupFiles := lsByMtime (s.fs.filter (fun e => matchesBackupGlob rootDir bn e.1))
  if (backupFiles.length : Int) > keep then
    let toDelete := jsSlice backupFiles keep
    { s with fs := s.fs.filter (fun e => !(toDelete.any (fun d => d.1 == e.1))) }
  else s

/-- Models `backupFile`.  Resolves the path, computes the artifact path from
the basename and the current timestamp, fails when the source file does not
exist, otherwise copies the bytes to the artifact path (`ensureBackupDir`
only creates a directory and is invisible in this model), appends a
`backup` record, and, when `options.maxBackups` is set and truthy (nonzero),
prunes old backups.  Returns the artifact path together with the final
state; on error the state is returned untouched. -/
def backupFile (rootDir : String) (s : Sys) (filePath : String)
    (options : BackupOptions) : Except String String × Sys :=
  let resolvedPath := resolveP s.cwd filePath
  let backupPath := getBackupPath rootDir s.nowIso resolvedPath
  match lookupFs s.fs resolvedPath with
  | none => (.error ("File not found: " ++ resolvedPath), s)
  | some fi =>
    let s1 : Sys :=
      { s with fs := setFile s.fs backupPath ({ content := fi.content, mtime := s.now }) }
    let s2 := recordOperation s1
      { timestamp := s.nowIso, originalPath := resolvedPath,
        backupPath := backupPath, operation := "backup",
        comment := options.comment }
    let s3 :=
      match options.maxBackups with
      | some m => if m ≠ 0 then cleanOldBackups rootDir s2 resolvedPath m else s2
      | none => s2
    (.ok backupPath, s3)

/-- Models `rollback`.  Fails when the artifact does not exist; otherwise the
target is the explicit `targetPath` when supplied and truthy (JavaScript
`targetPath || derived` treats the empty string as absent), else the
derivation chain `deriveTarget` applied to the resolved artifact path.  The
artifact bytes are copied onto the target and a `rollback` record is
appended. -/
def rollback (s : Sys) (backupPath : String) (targetPath : Option String) :
    Except String String × Sys :=
  match lookupFs s.fs (resolveP s.cwd backupPath) with
  | none => (.error ("Backup not found: " ++ backupPath), s)
  | some fi =>
    let resolvedTarget :=
      match targetPath with
      | some t => if t = "" then deriveTarget (resolveP s.cwd backupPath) else t
      | none => deriveTarget (resolveP s.cwd backupPath)
    let copied : FileInfo := { content := fi.content, mtime := s.now }
    let s1 : Sys :=
      { s with fs := setFile s.fs (resolveP s.cwd resolvedTarget) copied }
    let s2 := recordOperation s1
      { timestamp := s.nowIso, originalPath := resolvedTarget,
        backupPath := backupPath, operation := "rollback", comment := none }
    (.ok resolvedTarget, s2)

/-- Models the `.map(line => JSON.parse(line))` step of `listBackups`:
parsing stops with an exception at the first unparseable line. -/
def parseLines : List LogLine → Except String (List BackupRecord)
  | [] => .ok []
  | Sum.inl r :: rest => (parseLines rest).map (fun rs => r :: rs)
  | Sum.inr junk :: _ => .error ("Unexpected token in JSON: " ++ junk)

/-- Models `listBackups`: empty result when the log file does not exist,
otherwise the records of the nonempty lines in file order, filtered by the
resolved `filePath` when one is given. -/
def listBackups (s : Sys) (filePath : Option String) :
    Except String (List BackupRecord) :=
  match s.log with
  | none => .ok []
  | some lines =>
    match parseLines lines with
    | .error e => .error e
    | .ok records =>
      match filePath with
      | some fp =>
        let resolved := resolveP s.cwd fp
        .ok (records.filter (fun r =>
          r.originalPath == resolved || r.backupPath == resolved))
      | none => .ok records

/-! ## CLI dispatcher (the `list` and `clean` branches of `main`) -/

/-- Models `parseInt(arg, 10)` of JavaScript: `none` stands for `NaN`.
A missing argument (`undefined`) stringifies to `"undefined"` and yields
`NaN`.  Otherwise leading whitespace is skipped, an optional sign is read,
and the longest leading digit run is converted; no digits means `NaN`. -/
def jsParseInt (a : Option String) : Option Int :=
  match a with
  | none => none
  | some str =>
    let body := str.data.dropWhile (fun c =>
      c = ' ' || c = '\t' || c = '\n' || c = '\r')
    let digits (l : List Char) : Option Nat :=
      let ds := l.takeWhile Char.isDigit
      if ds.isEmpty then none
      else some (ds.foldl (fun acc c => acc * 10 + (c.toNat - '0'.toNat)) 0)
    match body with
    | '-' :: rest => (digits rest).map (fun n => -(n : Int))
    | '+' :: rest => (digits rest).map (fun n => (n : Int))
    | rest => (digits rest).map (fun n => (n : Int))

/-- Models `const keep = parseInt(args[2], 10) || 5` in the `clean` branch of
`main`: both `NaN` and `0` are falsy in JavaScript and are replaced by `5`. -/
def cliKeepArg (a : Option String) : Int :=
  match jsParseInt a with
  | some n => if n = 0 then 5 else n
  | none => 5

/-- Models the `clean` branch of `main` (under the top-level `try`/`catch`):
requires a truthy file argument, computes `keep` from the third argument,
runs `cleanOldBackups`, and prints a confirmation.  The first component is
the error/success message, the second the resulting state. -/
def runCleanCmd (rootDir : String) (s : Sys) (args : List String) :
    Except String String × Sys :=
  match args.get? 1 with
  | none => (.error "File path required", s)
  | some file =>
    if file = "" then (.error "File path required", s)
    else
      let keep := cliKeepArg (args.get? 2)
      (.ok ("Cleaned backups for " ++ file ++ ", keeping " ++ toString keep ++
        " most recent"), cleanOldBackups rootDir s file keep)

/-- Models the `list` branch of `main` together with the top-level
`try`/`catch`: an exception from `listBackups` (an unparseable log line) is
caught, printed as `Error: ...`, and the process exits `1`; otherwise the
records (or `No backups found.`) are printed and the process exits `0`.
Result: (exit code, printed lines). -/
def runListCmd (s : Sys) (fileArg : Option String) : Nat × List String :=
  match listBackups s fileArg with
  | .error msg => (1, ["Error: " ++ msg])
  | .ok records =>
    if records.length = 0 then (0, ["No backups found."])
    else
      (0, records.flatMap (fun r =>
        [r.timestamp ++ " - " ++ r.operation ++ ": " ++ r.backupPath] ++
        (match r.comment with
         | some cm => if cm = "" then [] else ["  Comment: " ++ cm]
         | none => [])))

/-! ## Example states used by the concrete theorems -/

/-- Initial state for the round-trip scenario: a single file
`/repo/notes.txt` holding `draft`, no log yet. -/
def sysRT : Sys :=
  { fs := [("/repo/notes.txt", { content := "draft", mtime := 0 })],
    log := none, cwd := "/repo", now := 1,
    nowIso := "2025-12-30T17:30:00.123Z" }

/-- The artifact path `backupFile` produces in the round-trip scenario. -/
def bpRT : String := "/repo/.context/backups/notes.txt.2025-12-30T17-30-00.bak"

/-- State after the backup of the round-trip scenario. -/
def sysRT1 : Sys := (backupFile "/repo" sysRT "/repo/notes.txt" ⟨none, none⟩).2

/-- State after mutating `/repo/notes.txt` to `final` (the `C'` write of the
round-trip scenario). -/
def sysRT2 : Sys :=
  { sysRT1 with fs := setFile sysRT1.fs "/repo/notes.txt" ({ content := "final", mtime := 2 }) }

/-- Operation tag of the last (most recently appended) log line, when that
line is a well-formed record. -/
def lastOp (s : Sys) : Option String :=
  match (s.log.getD []).getLast? with
  | some (Sum.inl r) => some r.operation
  | _ => none

/-- A log line whose operation tag is one of the two values the source ever
stores (unparseable lines are ignored by this check). -/
def lineOpOk : LogLine → Bool
  | Sum.inl r => r.operation == "backup" || r.operation == "rollback"
  | Sum.inr _ => true

/-- Every record in the log carries one of the two tags the source writes. -/
def logOpsOk (s : Sys) : Prop := (s.log.getD []).all lineOpOk = true

/-- Every nonempty line of the log parses as a record. -/
def wellFormedLog (s : Sys) : Prop := (s.log.getD []).all (fun l => l.isLeft) = true

/-! ## Helper lemmas -/

/-- Pruning never touches the operation log. -/
theorem cleanOldBackups_log (rootDir : String) (s : Sys) (f : String)
    (k : Int) : (cleanOldBackups rootDir s f k).log = s.log := by
  unfold cleanOldBackups
  dsimp only
  split <;> rfl

/-- Parsing a list of well-formed lines returns exactly its records,
in order. -/
theorem parseLines_map_inl (rs : List BackupRecord) :
    parseLines (rs.map Sum.inl) = .ok rs := by
  induction rs with
  | nil => rfl
  | cons r rest ih => simp [parseLines, ih, Except.map]

/-- Parsing succeeds whenever every line is well-formed. -/
theorem parseLines_ok_of_wf (lines : List LogLine)
    (h : ∀ l ∈ lines, l.isLeft = true) :
    ∃ rs, parseLines lines = .ok rs := by
  induction lines with
  | nil => exact ⟨[], rfl⟩
  | cons l rest ih =>
    obtain ⟨rs, hrs⟩ := ih (fun x hx => h x (List.mem_cons_of_mem _ hx))
    cases l with
    | inl r => exact ⟨r :: rs, by simp [parseLines, hrs, Except.map]⟩
    | inr junk => exact absurd (h _ (List.mem_cons_self _ _)) (by simp)

/-- Shape of the log after a successful `backupFile`: the existing lines are
duplicated (see `recordOperation`) and a fresh `backup` record is last. -/
theorem backupFile_ok_log (rootDir : String) (s : Sys) (p : String)
    (options : BackupOptions) (fi : FileInfo)
    (hfind : lookupFs s.fs (resolveP s.cwd p) = some fi) :
    ∃ r : BackupRecord, r.operation = "backup" ∧
      (backupFile rootDir s p options).2.log =
        some ((s.log.getD []) ++ ((s.log.getD []) ++ [Sum.inl r])) := by
  refine ⟨{ timestamp := s.nowIso, originalPath := resolveP s.cwd p,
            backupPath := getBackupPath rootDir s.nowIso (resolveP s.cwd p),
            operation := "backup", comment := options.comment }, rfl, ?_⟩
  simp only [backupFile, hfind, recordOperation]
  cases options.maxBackups with
  | none => rfl
  | some m =>
    by_cases hm : m = 0
    · simp [hm]
    · simp [hm, cleanOldBackups_log]

/-- Shape of the log after a successful `rollback`: the existing lines are
duplicated and a fresh `rollback` record is last. -/
theorem rollback_ok_log (s : Sys) (bp : String) (tp : Option String)
    (fi : FileInfo)
    (hfind : lookupFs s.fs (resolveP s.cwd bp) = some fi) :
    ∃ r : BackupRecord, r.operation = "rollback" ∧
      (rollback s bp tp).2.log =
        some ((s.log.getD []) ++ ((s.log.getD []) ++ [Sum.inl r])) := by
  refine ⟨{ timestamp := s.nowIso,
            originalPath :=
              match tp with
              | some t => if t = "" then deriveTarget (resolveP s.cwd bp) else t
              | none => deriveTarget (resolveP s.cwd bp),
            backupPath := bp, operation := "rollback", comment := none },
          rfl, ?_⟩
  simp only [rollback, hfind, recordOperation]

/-! ## Claims -/

/-- Claim C1 (status: code_bug).  The claim states that `backupFile(f)`
followed by mutating `f` and calling `rollback` on the artifact with no
explicit target restores `f` to its original bytes.  The code fails this:
the first `replace` of the target derivation substitutes the captured
timestamp for the whole `.context/backups/<name>.<ts>.bak` suffix, so the
restore writes to `<root>/<timestamp>` instead of the original path.  This
theorem evaluates the code on the failing input: after backing up
`/repo/notes.txt` (content `draft`), overwriting it with `final`, and
rolling back the artifact, `/repo/notes.txt` still holds `final`, and the
backed-up bytes have been written to `/repo/2025-12-30T17-30-00`. -/
theorem roundtrip_derivation_writes_elsewhere :
    (backupFile "/repo" sysRT "/repo/notes.txt" ⟨none, none⟩).1 = .ok bpRT ∧
    lookupFs sysRT.fs "/repo/notes.txt" = some ({ content := "draft", mtime := 0 }) ∧
    lookupFs (rollback sysRT2 bpRT none).2.fs "/repo/notes.txt" =
      some ({ content := "final", mtime := 2 }) ∧
    lookupFs (rollback sysRT2 bpRT none).2.fs "/repo/2025-12-30T17-30-00" =
      some ({ content := "draft", mtime := 1 }) := by
  decide

/-- Claim C2 (status: code_bug).  The claim states that `rollback` with no
explicit target derives its destination by stripping the backup-directory
prefix and the `.<timestamp>.bak` suffix, recovering the original path.  The
code's first `replace` instead rewrites the whole matched
`.context/backups/<name>.<ts>.bak` suffix to the captured timestamp `$1`:
for the artifact of `/repo/notes.txt` the derived destination is
`/repo/2025-12-30T17-30-00`, not `/repo/notes.txt`. -/
theorem deriveTarget_eval :
    deriveTarget "/repo/.context/backups/notes.txt.2025-12-30T17-30-00.bak" =
      "/repo/2025-12-30T17-30-00" ∧
    ("/repo/2025-12-30T17-30-00" : String) ≠ "/repo/notes.txt" := by
  decide

/-- Initial state for the log-duplication evaluation: the log already holds
one record. -/
def sysDup : Sys :=
  { fs := [("/repo/notes.txt", { content := "draft", mtime := 0 })],
    log := some [Sum.inl
      { timestamp := "2025-12-30T17:00:00.000Z",
        originalPath := "/repo/notes.txt",
        backupPath := "/repo/.context/backups/notes.txt.2025-12-30T17-00-00.bak",
        operation := "backup", comment := none }],
    cwd := "/repo", now := 1, nowIso := "2025-12-30T17:30:00.123Z" }

/-- Claim C3 (status: code_bug).  The claim states that a successful
`backupFile` appends exactly one new record line to the log.
`recordOperation` reads the existing log content and then writes
`existing + line` with the file flag `'a'` (append), so the file gains a
copy of its whole previous content plus the new line.  Evaluated on a state
whose log already holds one record, a single `backupFile` leaves a log of
three lines instead of two. -/
theorem backup_duplicates_log_eval :
    ((backupFile "/repo" sysDup "/repo/notes.txt" ⟨none, none⟩).2.log.getD []).length = 3 ∧
    ((backupFile "/repo" sysDup "/repo/notes.txt" ⟨none, none⟩).2.log.getD []).length ≠
      (sysDup.log.getD []).length + 1 := by
  decide

/-- State holding only one backup artifact, used by the rollback-tag
counterexample. -/
def sysTag : Sys :=
  { fs := [("/repo/.context/backups/notes.txt.2025-12-30T17-30-00.bak",
      { content := "draft", mtime := 0 })],
    log := none, cwd := "/repo", now := 1,
    nowIso := "2025-12-30T17:30:00.123Z" }

/-- Claim C4, counterexample.  The claim states that records written by
`rollback` carry the tag `restore`; the source's `BackupRecord` type and
`rollback` both use the literal `rollback`, so the record written by a
successful rollback is tagged `rollback`, not `restore`. -/
theorem rollback_record_not_restore :
    lastOp (rollback sysTag
      "/repo/.context/backups/notes.txt.2025-12-30T17-30-00.bak"
      (some "/repo/notes.txt")).2 = some "rollback" ∧
    (some "rollback" : Option String) ≠ some "restore" := by
  decide

/-- Claim C4, amended (status: corrected).  Every record written to the
operation log has an operation tag that is either `backup` or `rollback`:
records written by `backupFile` carry `backup` and records written by
`rollback` carry `rollback` (the source never writes a `restore` tag).
Stated for any two states whose logs already satisfy the tag invariant and
on which the respective operation succeeds. -/
theorem operation_tags (rootDir : String) (s t : Sys) (p bp : String)
    (options : BackupOptions) (tp : Option String)
    (hs : logOpsOk s) (ht : logOpsOk t)
    (hb : ∃ v, (backupFile rootDir s p options).1 = .ok v)
    (hr : ∃ v, (rollback t bp tp).1 = .ok v) :
    lastOp (backupFile rootDir s p options).2 = some "backup" ∧
    lastOp (rollback t bp tp).2 = some "rollback" ∧
    logOpsOk (backupFile rootDir s p options).2 ∧
    logOpsOk (rollback t bp tp).2 := by
  obtain ⟨vb, hvb⟩ := hb
  obtain ⟨vr, hvr⟩ := hr
  cases hfb : lookupFs s.fs (resolveP s.cwd p) with
  | none => simp [backupFile, hfb] at hvb
  | some fi =>
  cases hfr : lookupFs t.fs (resolveP t.cwd bp) with
  | none => simp [rollback, hfr] at hvr
  | some fj =>
  obtain ⟨r1, hr1op, hr1log⟩ := backupFile_ok_log rootDir s p options fi hfb
  obtain ⟨r2, hr2op, hr2log⟩ := rollback_ok_log t bp tp fj hfr
  refine ⟨?_, ?_, ?_, ?_⟩
  · unfold lastOp
    rw [hr1log]
    simp [← List.append_assoc, List.getLast?_concat, hr1op]
  · unfold lastOp
    rw [hr2log]
    simp [← List.append_assoc, List.getLast?_concat, hr2op]
  · unfold logOpsOk at hs ⊢
    rw [hr1log]
    simp [List.all_append, hs, lineOpOk, hr1op]
  · unfold logOpsOk at ht ⊢
    rw [hr2log]
    simp [List.all_append, ht, lineOpOk, hr2op]

/-- Witness for `operation_tags`: a concrete successful backup on `sysRT`
and rollback on `sysTag`. -/
theorem operation_tags_witness :
    (logOpsOk sysRT ∧ logOpsOk sysTag ∧
     (∃ v, (backupFile "/repo" sysRT "/repo/notes.txt" ⟨none, none⟩).1 = .ok v) ∧
     (∃ v, (rollback sysTag
       "/repo/.context/backups/notes.txt.2025-12-30T17-30-00.bak"
       (some "/repo/target.txt")).1 = .ok v)) ∧
    (lastOp (backupFile "/repo" sysRT "/repo/notes.txt" ⟨none, none⟩).2 =
       some "backup" ∧
     lastOp (rollback sysTag
       "/repo/.context/backups/notes.txt.2025-12-30T17-30-00.bak"
       (some "/repo/target.txt")).2 = some "rollback" ∧
     logOpsOk (backupFile "/repo" sysRT "/repo/notes.txt" ⟨none, none⟩).2 ∧
     logOpsOk (rollback sysTag
       "/repo/.context/backups/notes.txt.2025-12-30T17-30-00.bak"
       (some "/repo/target.txt")).2) :=
  ⟨⟨by unfold logOpsOk; decide, by unfold logOpsOk; decide,
    ⟨"/repo/.context/backups/notes.txt.2025-12-30T17-30-00.bak", by decide⟩,
    ⟨"/repo/target.txt", by decide⟩⟩,
   operation_tags "/repo" sysRT sysTag "/repo/notes.txt"
     "/repo/.context/backups/notes.txt.2025-12-30T17-30-00.bak"
     ⟨none, none⟩ (some "/repo/target.txt")
     (by unfold logOpsOk; decide) (by unfold logOpsOk; decide)
     ⟨"/repo/.context/backups/notes.txt.2025-12-30T17-30-00.bak", by decide⟩
     ⟨"/repo/target.txt", by decide⟩⟩

/-- Claim C5 (status: confirmed).  For a path that does not reference an
existing file, `backupFile` fails with the `File not found` error and
returns the state unchanged: no artifact is written and no record is
appended (the existence check precedes every write in the source). -/
theorem backupFile_missing_source (rootDir : String) (s : Sys) (p : String)
    (options : BackupOptions)
    (h : lookupFs s.fs (resolveP s.cwd p) = none) :
    backupFile rootDir s p options =
      (.error ("File not found: " ++ resolveP s.cwd p), s) := by
  simp only [backupFile, h]

/-- Witness for `backupFile_missing_source` at the concrete missing path
`/repo/missing.txt`. -/
theorem backupFile_missing_source_witness :
    lookupFs sysRT.fs (resolveP sysRT.cwd "/repo/missing.txt") = none ∧
    backupFile "/repo" sysRT "/repo/missing.txt" ⟨none, none⟩ =
      (.error ("File not found: " ++ resolveP sysRT.cwd "/repo/missing.txt"), sysRT) :=
  ⟨by decide, backupFile_missing_source "/repo" sysRT "/repo/missing.txt" ⟨none, none⟩ (by decide)⟩

/-- Claim C6 (status: confirmed).  For a backup path that does not reference
an existing artifact, `rollback` fails with the `Backup not found` error and
returns the state unchanged: neither the explicit nor the derived target is
written and no record is appended. -/
theorem rollback_missing_artifact (s : Sys) (bp : String)
    (tp : Option String)
    (h : lookupFs s.fs (resolveP s.cwd bp) = none) :
    rollback s bp tp = (.error ("Backup not found: " ++ bp), s) := by
  simp only [rollback, h]

/-- Witness for `rollback_missing_artifact` at a concrete missing artifact
path. -/
theorem rollback_missing_artifact_witness :
    lookupFs sysRT.fs (resolveP sysRT.cwd "/no/such/backup.bak") = none ∧
    rollback sysRT "/no/such/backup.bak" none =
      (.error ("Backup not found: " ++ "/no/such/backup.bak"), sysRT) :=
  ⟨by decide, rollback_missing_artifact sysRT "/no/such/backup.bak" none (by decide)⟩

/-- Claim C8 (status: confirmed).  `listBackups` returns the log's records
in the order the lines sit in the file (each write appends, so file order is
append order), and returns the empty sequence rather than an error when the
log file does not exist. -/
theorem listBackups_order (fsL : List (String × FileInfo)) (cwd : String)
    (now : Nat) (iso : String) (rs : List BackupRecord) :
    listBackups
      { fs := fsL, log := some (rs.map Sum.inl), cwd := cwd, now := now,
        nowIso := iso } none = .ok rs ∧
    listBackups
      { fs := fsL, log := none, cwd := cwd, now := now, nowIso := iso }
      none = .ok [] := by
  constructor
  · simp [listBackups, parseLines_map_inl]
  · rfl

/-- State whose log holds a single line that is not valid JSON. -/
def sysBadLog : Sys :=
  { fs := [], log := some [Sum.inr "oops"], cwd := "/repo", now := 0,
    nowIso := "2025-12-30T17:30:00.123Z" }

/-- Claim C9, counterexample.  The claim states the `list` command exits `0`
for every state of the log file, including one containing any content; but a
log line that is not valid JSON makes `JSON.parse` throw, the top-level
handler prints the error, and the process exits `1`. -/
theorem listCmd_malformed_exits_one :
    (runListCmd sysBadLog none).1 = 1 ∧ (runListCmd sysBadLog none).1 ≠ 0 := by
  decide

/-- Claim C9, amended (status: corrected).  The `list` command exits `0`
for every state of the operation log whose nonempty lines all parse as
records — in particular a missing or empty log — and prints
`No backups found.` rather than an error when there are no records; a log
line that is not valid JSON instead makes it exit `1`. -/
theorem listCmd_exit_zero (s : Sys) (fileArg : Option String)
    (h : wellFormedLog s) :
    (runListCmd s fileArg).1 = 0 ∧
    (listBackups s fileArg = .ok [] →
      (runListCmd s fileArg).2 = ["No backups found."]) := by
  have hok : ∃ rs, listBackups s fileArg = .ok rs := by
    cases hl : s.log with
    | none => exact ⟨[], by simp [listBackups, hl]⟩
    | some lines =>
      have hwf : ∀ l ∈ lines, l.isLeft = true := by
        unfold wellFormedLog at h
        rw [hl] at h
        simpa [List.all_eq_true] using h
      obtain ⟨rs, hrs⟩ := parseLines_ok_of_wf lines hwf
      cases fileArg with
      | none => exact ⟨rs, by simp [listBackups, hl, hrs]⟩
      | some fp =>
        exact ⟨rs.filter (fun r =>
          r.originalPath == resolveP s.cwd fp ||
          r.backupPath == resolveP s.cwd fp), by simp [listBackups, hl, hrs]⟩
  obtain ⟨rs, hrs⟩ := hok
  refine ⟨?_, ?_⟩
  · simp only [runListCmd, hrs]
    split <;> rfl
  · intro hnil
    rw [hrs] at hnil
    simp only [Except.ok.injEq] at hnil
    subst hnil
    simp [runListCmd, hrs]

/-- Witness for `listCmd_exit_zero` on a state with no log file. -/
theorem listCmd_exit_zero_witness :
    wellFormedLog sysRT ∧
    ((runListCmd sysRT none).1 = 0 ∧
     (listBackups sysRT none = .ok [] →
       (runListCmd sysRT none).2 = ["No backups found."])) :=
  ⟨by unfold wellFormedLog; decide,
   listCmd_exit_zero sysRT none (by unfold wellFormedLog; decide)⟩

/-- Claim C10 (status: confirmed).  In the `clean` branch of `main`, a
`<keep>` argument that parses to `0` or fails to parse is replaced by `5`
(JavaScript `parseInt(args[2], 10) || 5`) before `cleanOldBackups` runs, so
`clean <file> 0` retains up to `5` artifacts instead of deleting all. -/
theorem clean_keep_fallback (rootDir : String) (s : Sys) (f a : String)
    (hf : ¬ f = "")
    (h : jsParseInt (some a) = none ∨ jsParseInt (some a) = some 0) :
    cliKeepArg (some a) = 5 ∧
    (runCleanCmd rootDir s ["clean", f, a]).2 = cleanOldBackups rootDir s f 5 := by
  have hk : cliKeepArg (some a) = 5 := by
    rcases h with h | h <;> simp [cliKeepArg, h]
  refine ⟨hk, ?_⟩
  simp [runCleanCmd, hf, hk, List.get?]

/-- Witness for `clean_keep_fallback`: the literal argument `0`. -/
theorem clean_keep_fallback_witness :
    (¬ ("a.txt" : String) = "") ∧
    (jsParseInt (some "0") = none ∨ jsParseInt (some "0") = some 0) ∧
    (cliKeepArg (some "0") = 5 ∧
     (runCleanCmd "/repo" sysRT ["clean", "a.txt", "0"]).2 =
       cleanOldBackups "/repo" sysRT "a.txt" 5) :=
  ⟨by decide, Or.inr (by decide),
   clean_keep_fallback "/repo" sysRT "a.txt" "0" (by decide) (Or.inr (by decide))⟩

/-! ## Retention (claim C7) -/

/-- The artifacts of `f` present in the state: the filesystem entries that
the glob `"${BACKUP_DIR}/${basename}".*.bak` of `cleanOldBackups` selects. -/
def backupsOf (rootDir : String) (s : Sys) (f : String) :
    List (String × FileInfo) :=
  s.fs.filter (fun e => matchesBackupGlob rootDir (lastComponent f) e.1)

/-- Unfolding equation for `cleanOldBackups` in terms of `backupsOf`. -/
theorem cleanOldBackups_eq (rootDir : String) (s : Sys) (f : String)
    (k : Int) :
    cleanOldBackups rootDir s f k =
      if ((lsByMtime (backupsOf rootDir s f)).length : Int) > k then
        { s with fs := s.fs.filter (fun e =>
            !((jsSlice (lsByMtime (backupsOf rootDir s f)) k).any
              (fun d => d.1 == e.1))) }
      else s := rfl

/-- Inserting into the sorted list is a permutation of consing. -/
theorem insertDesc_perm (x : String × FileInfo)
    (l : List (String × FileInfo)) : (insertDesc x l).Perm (x :: l) := by
  induction l with
  | nil => exact List.Perm.refl _
  | cons y ys ih =>
    unfold insertDesc
    split
    · exact List.Perm.refl _
    · exact (List.Perm.cons y ih).trans (List.Perm.swap x y ys)

/-- The `ls -t` sort is a permutation of its input. -/
theorem lsByMtime_perm (l : List (String × FileInfo)) :
    (lsByMtime l).Perm l := by
  induction l with
  | nil => exact List.Perm.refl _
  | cons x xs ih =>
    exact (insertDesc_perm x (lsByMtime xs)).trans (List.Perm.cons x ih)

/-- Deleting, from a list with duplicate-free paths, exactly the entries
whose path occurs in the `D` part of a split permutation `T ++ D` leaves a
permutation of the `T` part. -/
theorem filter_keep_perm_take (M T D : List (String × FileInfo))
    (hperm : (T ++ D).Perm M) (hnd : (M.map Prod.fst).Nodup) :
    (M.filter (fun e => !(D.any (fun d => d.1 == e.1)))).Perm T := by
  have hndTD : ((T ++ D).map Prod.fst).Nodup :=
    ((hperm.map Prod.fst).symm).nodup hnd
  rw [List.map_append] at hndTD
  have hdisj := List.disjoint_of_nodup_append hndTD
  have hT : ∀ e ∈ T, (!(D.any (fun d => d.1 == e.1))) = true := by
    intro e he
    cases hany : D.any (fun d => d.1 == e.1) with
    | false => rfl
    | true =>
      exfalso
      rw [List.any_eq_true] at hany
      obtain ⟨d, hd, hde⟩ := hany
      have hde' : d.1 = e.1 := eq_of_beq hde
      exact hdisj (List.mem_map_of_mem Prod.fst he)
        (hde' ▸ List.mem_map_of_mem Prod.fst hd)
  have hD : ∀ e ∈ D, ¬ ((!(D.any (fun d => d.1 == e.1))) = true) := by
    intro e he
    have : D.any (fun d => d.1 == e.1) = true :=
      List.any_eq_true.mpr ⟨e, he, by simp⟩
    simp [this]
  calc (M.filter (fun e => !(D.any (fun d => d.1 == e.1)))).Perm
        ((T ++ D).filter (fun e => !(D.any (fun d => d.1 == e.1)))) :=
        (hperm.symm).filter _
    _ = T.filter (fun e => !(D.any (fun d => d.1 == e.1))) ++
        D.filter (fun e => !(D.any (fun d => d.1 == e.1))) :=
        List.filter_append T D
    _ = T ++ [] := by
        rw [List.filter_eq_self.mpr hT, List.filter_eq_nil_iff.mpr hD]
    _ = T := by simp

/-- Claim C7 (status: confirmed).  After `cleanOldBackups f k` with
`k ≥ 0` (and duplicate-free filesystem paths), the surviving artifacts of
`f` are exactly the first `k` entries of the `ls -t` ordering of the prior
artifact set — the `k` most recently modified — so exactly
`min k n` of the prior `n` artifacts remain; `k = 0` therefore deletes all
matching artifacts; no matching artifacts makes the call the identity, not
an error; and the operation log is never touched. -/
theorem cleanOldBackups_retention (rootDir : String) (s : Sys) (f : String)
    (k : Int) (hk : 0 ≤ k) (hnd : (s.fs.map Prod.fst).Nodup) :
    (backupsOf rootDir (cleanOldBackups rootDir s f k) f).Perm
      ((lsByMtime (backupsOf rootDir s f)).take k.toNat) ∧
    (backupsOf rootDir (cleanOldBackups rootDir s f k) f).length =
      min k.toNat (backupsOf rootDir s f).length ∧
    (backupsOf rootDir s f = [] → cleanOldBackups rootDir s f k = s) ∧
    (cleanOldBackups rootDir s f k).log = s.log := by
  have hperm := lsByMtime_perm (backupsOf rootDir s f)
  have hlenS := hperm.length_eq
  have hlog : (cleanOldBackups rootDir s f k).log = s.log := by
    rw [cleanOldBackups_eq]
    split <;> rfl
  rcases le_or_lt ((lsByMtime (backupsOf rootDir s f)).length : Int) k
    with hle | hlt
  · -- at most `keep` artifacts: the call is the identity
    have hclean : cleanOldBackups rootDir s f k = s := by
      rw [cleanOldBackups_eq, if_neg (by omega)]
    have htake : (lsByMtime (backupsOf rootDir s f)).take k.toNat =
        lsByMtime (backupsOf rootDir s f) :=
      List.take_of_length_le (by omega)
    refine ⟨?_, ?_, fun _ => hclean, hlog⟩
    · rw [hclean, htake]
      exact hperm.symm
    · rw [hclean]
      omega
  · -- more than `keep` artifacts: the tail of the ls ordering is deleted
    have hndM : ((backupsOf rootDir s f).map Prod.fst).Nodup :=
      hnd.sublist ((List.filter_sublist s.fs).map Prod.fst)
    have hjs : jsSlice (lsByMtime (backupsOf rootDir s f)) k =
        (lsByMtime (backupsOf rootDir s f)).drop k.toNat := by
      unfold jsSlice
      rw [if_pos hk]
    have hfs : (cleanOldBackups rootDir s f k).fs =
        s.fs.filter (fun e =>
          !(((lsByMtime (backupsOf rootDir s f)).drop k.toNat).any
            (fun d => d.1 == e.1))) := by
      rw [cleanOldBackups_eq, if_pos hlt, hjs]
    have hMfil : backupsOf rootDir (cleanOldBackups rootDir s f k) f =
        (backupsOf rootDir s f).filter (fun e =>
          !(((lsByMtime (backupsOf rootDir s f)).drop k.toNat).any
            (fun d => d.1 == e.1))) := by
      show (cleanOldBackups rootDir s f k).fs.filter _ = _
      rw [hfs]
      unfold backupsOf
      rw [List.filter_filter, List.filter_filter]
      exact List.filter_congr (fun x _ => Bool.and_comm _ _)
    have hpermTD : ((lsByMtime (backupsOf rootDir s f)).take k.toNat ++
        (lsByMtime (backupsOf rootDir s f)).drop k.toNat).Perm
          (backupsOf rootDir s f) := by
      rw [List.take_append_drop]
      exact hperm
    have hmain := filter_keep_perm_take (backupsOf rootDir s f) _ _ hpermTD hndM
    refine ⟨?_, ?_, ?_, hlog⟩
    · rw [hMfil]
      exact hmain
    · have hlen : (backupsOf rootDir (cleanOldBackups rootDir s f k) f).length =
          ((lsByMtime (backupsOf rootDir s f)).take k.toNat).length := by
        rw [hMfil]
        exact hmain.length_eq
      rw [hlen, List.length_take]
      omega
    · intro h0
      exfalso
      rw [h0] at hlt
      simp only [lsByMtime, List.length_nil] at hlt
      omega

/-- Witness state for the retention theorem: three artifacts of `a.txt`
with distinct modification times, plus the source file itself. -/
def sysClean : Sys :=
  { fs := [("/r/a.txt", { content := "c0", mtime := 0 }),
           ("/r/.context/backups/a.txt.1.bak", { content := "c1", mtime := 1 }),
           ("/r/.context/backups/a.txt.3.bak", { content := "c3", mtime := 3 }),
           ("/r/.context/backups/a.txt.2.bak", { content := "c2", mtime := 2 })],
    log := some [], cwd := "/r", now := 4,
    nowIso := "2025-12-30T17:30:00.123Z" }

/-- Witness for `cleanOldBackups_retention` at `keep = 2` on `sysClean`. -/
theorem cleanOldBackups_retention_witness :
    ((0 : Int) ≤ 2 ∧ (sysClean.fs.map Prod.fst).Nodup) ∧
    ((backupsOf "/r" (cleanOldBackups "/r" sysClean "a.txt" 2) "a.txt").Perm
      ((lsByMtime (backupsOf "/r" sysClean "a.txt")).take (2 : Int).toNat) ∧
    (backupsOf "/r" (cleanOldBackups "/r" sysClean "a.txt" 2) "a.txt").length =
      min (2 : Int).toNat (backupsOf "/r" sysClean "a.txt").length ∧
    (backupsOf "/r" sysClean "a.txt" = [] →
      cleanOldBackups "/r" sysClean "a.txt" 2 = sysClean) ∧
    (cleanOldBackups "/r" sysClean "a.txt" 2).log = sysClean.log) :=
  ⟨⟨by decide, by decide⟩,
   cleanOldBackups_retention "/r" sysClean "a.txt" 2 (by decide) (by decide)⟩

end SafeOp
